import Mathlib

/-!
Verification of the clinical-trial data-quality utilities
(`patient_validator.py`, `adverse_event_processor.py`, `protocol_parser.py`)
against their natural-language specification.

The Python code is shallowly embedded: dictionaries with heterogeneous
field values become structures of `Option Value` fields, Python exceptions
become `Except PyErr`, floats returned by the two ratio computations are
modelled exactly as rationals, and the two external collaborators (the
ISO-date / pandas timestamp parsers and wall-clock "now") are passed in as
explicit parameters, as the spec describes them (§6: external date/time
parsing primitives that either fail or yield a comparable timestamp).
-/

/-- A Python value as it can appear in one of the record dictionaries:
a string, an `int`, a `bool`, or `None`. -/
inductive Value where
  | str (s : String)
  | int (n : Int)
  | bool (b : Bool)
  | vnull
deriving DecidableEq, Repr

/-- A Python exception escaping a call: `TypeError` (e.g.
`datetime.fromisoformat` applied to a non-string) or the `ValueError` family
(unparseable dates raised by `pd.to_datetime`). -/
inductive PyErr where
  | typeError
  | valueError
deriving DecidableEq, Repr

deriving instance DecidableEq for Except

/-- `str(value)` as an f-string renders it: strings bare, ints in decimal,
`True` / `False`, `None`. -/
def Value.pyStr : Value → String
  | .str s => s
  | .int n => toString n
  | .bool b => if b then "True" else "False"
  | .vnull => "None"

/-- A single-quote character, kept out of string literals. -/
def singleQuote : String := String.singleton (Char.ofNat 39)

/-- Python `repr` of a string for the message of the severity check. -/
def quoted (s : String) : String := singleQuote ++ s ++ singleQuote

namespace PatientValidator

/-- A patient record: the six fields the schema and the validator read.
`none` means the key is absent from the dictionary; extra keys are never
read by `validate` and the schema allows them, so they are not modelled. -/
structure PatientData where
  patient_id : Option Value
  age : Option Value
  gender : Option Value
  enrollment_date : Option Value
  site_id : Option Value
  consent_signed : Option Value
deriving DecidableEq, Repr

/-- The regex `^PAT[0-9]{6}$` from `SCHEMA.properties.patient_id.pattern`. -/
def matchPAT (s : String) : Bool :=
  s.data.take 3 == "PAT".data
    && (s.data.drop 3).length == 6
    && (s.data.drop 3).all Char.isDigit

/-- The regex `^SITE[0-9]{3}$` from `SCHEMA.properties.site_id.pattern`. -/
def matchSITE (s : String) : Bool :=
  s.data.take 4 == "SITE".data
    && (s.data.drop 4).length == 3
    && (s.data.drop 4).all Char.isDigit

/-- Draft-7 validation of one present property value against its subschema,
in `SCHEMA.properties` order.  Each keyword (`type`, `pattern`, `minimum`,
`maximum`, `enum`) contributes its own error; `pattern` / `minimum` /
`maximum` apply only to values of the right primitive type, `enum` compares
with `==` whatever the type; jsonschema's type checker does not accept a
`bool` for `"integer"`; `"format": "date"` is annotation-only for a
`Draft7Validator` built without a format checker, so `enrollment_date` is
only type-checked here.  The message texts summarise jsonschema's (no claim
inspects them); paths and reasons are kept distinct per field. -/
def propertyErrors (field : String) (v : Value) : List String :=
  if field == "patient_id" then
    match v with
    | .str s => if matchPAT s then [] else ["$.patient_id: does not match pattern PAT + 6 digits"]
    | _ => ["$.patient_id: is not of type string"]
  else if field == "age" then
    (match v with
     | .int _ => []
     | _ => ["$.age: is not of type integer"])
    ++ (match v with
        | .int n => if n < 18 then ["$.age: is less than the minimum of 18"] else []
        | _ => [])
    ++ (match v with
        | .int n => if n > 85 then ["$.age: is greater than the maximum of 85"] else []
        | _ => [])
  else if field == "gender" then
    (match v with
     | .str _ => []
     | _ => ["$.gender: is not of type string"])
    ++ (if v == .str "M" || v == .str "F" || v == .str "O" then []
        else ["$.gender: is not one of M, F, O"])
  else if field == "enrollment_date" then
    match v with
    | .str _ => []
    | _ => ["$.enrollment_date: is not of type string"]
  else if field == "site_id" then
    match v with
    | .str s => if matchSITE s then [] else ["$.site_id: does not match pattern SITE + 3 digits"]
    | _ => ["$.site_id: is not of type string"]
  else if field == "consent_signed" then
    match v with
    | .bool _ => []
    | _ => ["$.consent_signed: is not of type boolean"]
  else []

/-- Dictionary lookup `patient_data[field]` for the six schema fields. -/
def getField (p : PatientData) (field : String) : Option Value :=
  if field == "patient_id" then p.patient_id
  else if field == "age" then p.age
  else if field == "gender" then p.gender
  else if field == "enrollment_date" then p.enrollment_date
  else if field == "site_id" then p.site_id
  else if field == "consent_signed" then p.consent_signed
  else none

/-- `SCHEMA.required` in declaration order (equal to the properties order). -/
def schemaFields : List String :=
  ["patient_id", "age", "gender", "enrollment_date", "site_id", "consent_signed"]

/-- All errors yielded by `Draft7Validator(SCHEMA).iter_errors(patient_data)`,
formatted as the code does (`f"{error.json_path}: {error.message}"`):
per-property keyword errors for present properties, then one error per
missing required field. -/
def schemaErrors (p : PatientData) : List String :=
  (schemaFields.flatMap fun f =>
    match getField p f with
    | some v => propertyErrors f v
    | none => [])
  ++ (schemaFields.filterMap fun f =>
    match getField p f with
    | some _ => none
    | none => some ("$: required property " ++ f ++ " is missing"))

/-- `PatientValidator.validate`.  `parse` is `datetime.fromisoformat`
restricted to strings (`none` = raises `ValueError`); calling it on a
present non-string `enrollment_date` raises `TypeError`, which the
`except ValueError` clause does not catch, so the call fails with
`.error .typeError`.  `now` is `datetime.now()`. -/
def validate (parse : String → Option Int) (now : Int) (p : PatientData) :
    Except PyErr (Bool × List String) :=
  let e1 := schemaErrors p
  match p.enrollment_date with
  | some (.str s) =>
    let e2 :=
      match parse s with
      | some t => if t > now then ["enrollment_date: Cannot be in the future"] else []
      | none => ["enrollment_date: Invalid date format"]
    let e3 :=
      if p.consent_signed == some (.bool false)
      then ["consent_signed: Patient must have signed consent"] else []
    let errors := e1 ++ e2 ++ e3
    .ok (errors.length == 0, errors)
  | some _ => .error .typeError
  | none =>
    let e3 :=
      if p.consent_signed == some (.bool false)
      then ["consent_signed: Patient must have signed consent"] else []
    let errors := e1 ++ e3
    .ok (errors.length == 0, errors)

/-- The result dictionary of `validate_batch`. -/
structure BatchResult where
  valid : List PatientData
  invalid : List (PatientData × List String)
deriving DecidableEq, Repr

/-- `PatientValidator.validate_batch`: partitions the input in order; an
exception raised by `validate` on any record propagates out of the loop. -/
def validate_batch (parse : String → Option Int) (now : Int) :
    List PatientData → Except PyErr BatchResult
  | [] => .ok ⟨[], []⟩
  | p :: rest => do
    let (isValid, errors) ← validate parse now p
    let b ← validate_batch parse now rest
    if isValid then
      pure ⟨p :: b.valid, b.invalid⟩
    else
      pure ⟨b.valid, (p, errors) :: b.invalid⟩

/-- The summary dictionary of `get_validation_summary`; `validation_rate`
models the Python float division exactly as a rational. -/
structure Summary where
  total : Nat
  valid : Nat
  invalid : Nat
  validation_rate : ℚ
deriving DecidableEq, Repr

/-- `PatientValidator.get_validation_summary`. -/
def get_validation_summary (parse : String → Option Int) (now : Int)
    (patients : List PatientData) : Except PyErr Summary := do
  let results ← validate_batch parse now patients
  pure
    { total := patients.length
      valid := results.valid.length
      invalid := results.invalid.length
      validation_rate :=
        if patients.isEmpty then 0
        else (results.valid.length : ℚ) / (patients.length : ℚ) }

end PatientValidator

namespace AdverseEventProcessor

/-- `SEVERITY_LEVELS`. -/
def severity_levels : List String :=
  ["Mild", "Moderate", "Severe", "Life-threatening", "Fatal"]

/-- `REQUIRED_COLUMNS`. -/
def required_columns : List String :=
  ["event_id", "patient_id", "event_date", "description", "severity"]

/-- An adverse-event record: the five fields `validate_event` reads.
`none` means the key is absent from the dictionary. -/
structure Event where
  event_id : Option Value
  patient_id : Option Value
  event_date : Option Value
  description : Option Value
  severity : Option Value
deriving DecidableEq, Repr

/-- Dictionary lookup `event[field]` for the five required columns. -/
def getField (ev : Event) (field : String) : Option Value :=
  if field == "event_id" then ev.event_id
  else if field == "patient_id" then ev.patient_id
  else if field == "event_date" then ev.event_date
  else if field == "description" then ev.description
  else if field == "severity" then ev.severity
  else none

/-- `field not in event or event[field] is None or event[field] == ""`. -/
def fieldMissing (ev : Event) (field : String) : Bool :=
  match getField ev field with
  | none => true
  | some v => v == .vnull || v == .str ""

/-- The required-field errors, in `REQUIRED_COLUMNS` order. -/
def missingErrors (ev : Event) : List String :=
  (required_columns.filter (fun f => fieldMissing ev f)).map
    (fun f => "Missing required field: " ++ f)

/-- `event["severity"] in SEVERITY_LEVELS` (Python `in` on a list of
strings: equality holds only for an equal string). -/
def inSeverityLevels (v : Value) : Bool :=
  match v with
  | .str s => severity_levels.contains s
  | _ => false

/-- Python `str(SEVERITY_LEVELS)`, which the severity f-string interpolates:
the list rendered with quoted elements. -/
def severityLevelsStr : String :=
  "[" ++ quoted "Mild" ++ ", " ++ quoted "Moderate" ++ ", " ++ quoted "Severe"
    ++ ", " ++ quoted "Life-threatening" ++ ", " ++ quoted "Fatal" ++ "]"

/-- The invalid-severity message
`f"Invalid severity: {event['severity']}. Must be one of {SEVERITY_LEVELS}"`. -/
def severityMsg (v : Value) : String :=
  "Invalid severity: " ++ v.pyStr ++ ". Must be one of " ++ severityLevelsStr

/-- `"event_date: Invalid date format"`. -/
def dateFormatMsg : String := "event_date: Invalid date format"

/-- `"event_date: Cannot be in the future"`. -/
def dateFutureMsg : String := "event_date: Cannot be in the future"

/-- `"patient_id: Must be string starting with 'PAT'"`. -/
def patientIdMsg : String :=
  "patient_id: Must be string starting with " ++ quoted "PAT"

/-- `isinstance(value, str) and value.startswith("PAT")`. -/
def isStrStartingPAT (v : Value) : Bool :=
  match v with
  | .str s => s.startsWith "PAT"
  | _ => false

/-- The severity check block: `"severity" in event and event["severity"]
not in SEVERITY_LEVELS` appends the invalid-severity message. -/
def sevErrors (ev : Event) : List String :=
  match ev.severity with
  | some v => if inSeverityLevels v then [] else [severityMsg v]
  | none => []

/-- The date check block: `"event_date" in event` guards a
`pd.to_datetime` attempt; a raise (bare `except`) yields the format error,
a parsed timestamp later than now yields the future error. -/
def dateErrors (parse : Value → Option Int) (now : Int) (ev : Event) :
    List String :=
  match ev.event_date with
  | some v =>
    match parse v with
    | some t => if t > now then [dateFutureMsg] else []
    | none => [dateFormatMsg]
  | none => []

/-- The patient-id format check block. -/
def pidErrors (ev : Event) : List String :=
  match ev.patient_id with
  | some v => if isStrStartingPAT v then [] else [patientIdMsg]
  | none => []

/-- `AdverseEventProcessor.validate_event`.  `parse` is `pd.to_datetime` on
a single value (`none` = raises; the bare `except` turns any failure into
the invalid-format error), `now` is `pd.Timestamp.now()`.  The four checks
accumulate errors in source order: required fields, severity, date,
patient-id format. -/
def validate_event (parse : Value → Option Int) (now : Int) (ev : Event) :
    Bool × List String :=
  let errors :=
    missingErrors ev ++ sevErrors ev ++ dateErrors parse now ev
      ++ pidErrors ev
  (errors.length == 0, errors)

/-- One cell of the `event_date` column: either still the raw string from
the CSV, or an already-converted timestamp. -/
inductive DateVal where
  | str (s : String)
  | ts (t : Int)
deriving DecidableEq, Repr

/-- The DataFrame as `calculate_event_rate` sees it: it reads only
`len(df)` and the `event_date` column, so the frame is modelled by that
column (one cell per row). -/
structure DF where
  event_date : List DateVal
deriving DecidableEq, Repr

/-- `pd.to_datetime` on one cell: a timestamp passes through, a string
goes to the external parser (`none` = raises). -/
def toDatetime (parse : String → Option Int) : DateVal → Option Int
  | .str s => parse s
  | .ts t => some t

/-- Maximum of a nonempty timestamp list (`df["event_date"].max()`). -/
def colMax (t : Int) (ts : List Int) : Int := ts.foldl max t

/-- Minimum of a nonempty timestamp list (`df["event_date"].min()`). -/
def colMin (t : Int) (ts : List Int) : Int := ts.foldl min t

/-- `AdverseEventProcessor.calculate_event_rate`.  Returns the float
result (modelled exactly as a rational) together with the DataFrame as the
caller sees it afterwards: the assignment
`df["event_date"] = pd.to_datetime(df["event_date"])` rewrites the column
in place before the rate is computed.  Timestamps are at day granularity,
so `.days` of the spread is the plain difference.  An unparseable cell
makes `pd.to_datetime` raise (`.error`); the `days` parameter is accepted
and unused. -/
def calculate_event_rate (parse : String → Option Int) (df : DF)
    (days : Int) : Except PyErr (ℚ × DF) :=
  match df.event_date with
  | [] => .ok (0, df)
  | d :: ds =>
    match toDatetime parse d, ds.mapM (toDatetime parse) with
    | some t, some rest =>
      let df' : DF := ⟨(t :: rest).map DateVal.ts⟩
      let date_range := colMax t rest - colMin t rest
      if date_range == 0 then .ok (((d :: ds).length : ℚ), df')
      else .ok (((d :: ds).length : ℚ) / (date_range : ℚ), df')
    | _, _ => .error .valueError

end AdverseEventProcessor

namespace ProtocolParser

/-- Python `str.strip` / regex `\s` whitespace (space, tab, newline,
carriage return, vertical tab, form feed). -/
def pyIsSpace (c : Char) : Bool :=
  c == ' ' || c == '\t' || c == '\n' || c == '\r'
    || c == Char.ofNat 11 || c == Char.ofNat 12

/-- Case-insensitive prefix test, the building block of `re.IGNORECASE`
matching of a literal: does `text` start with `pat`, comparing characters
lower-cased? -/
def ciStarts : List Char → List Char → Bool
  | [], _ => true
  | _ :: _, [] => false
  | p :: ps, c :: cs => (p.toLower == c.toLower) && ciStarts ps cs

/-- Python `str.strip()` on a character list. -/
def pyStrip (l : List Char) : List Char :=
  ((l.dropWhile pyIsSpace).reverse.dropWhile pyIsSpace).reverse

/-- The literal part `Inclusion Criteri` of the heading regex
`Inclusion Criteria?:?` (the final `a` and the colon are optional). -/
def inclHeading : List Char := "inclusion criteri".data

/-- The lookahead literal `Exclusion Criteria` of the inclusion regex. -/
def exclHeading : List Char := "exclusion criteria".data

/-- After the literal heading matched: consume the optional `a?` (greedy,
case-insensitive), the optional `:?`, then the greedy `\s*`.  Greediness
here is exact: the remainder of the regex (`(.*?)(?=Exclusion Criteria|$)`)
matches every suffix, so the greedy choices are never backtracked. -/
def afterInclHeading (l : List Char) : List Char :=
  let l1 := match l with
            | c :: cs => if c.toLower == 'a' then cs else c :: cs
            | [] => []
  let l2 := match l1 with
            | c :: cs => if c == ':' then cs else c :: cs
            | [] => []
  l2.dropWhile pyIsSpace

/-- `re.search` scanning for the heading: the leftmost position where the
literal matches starts the (always successful) overall match; returns the
text right after `Inclusion Criteria?:?\s*`, where the capture begins. -/
def findInclusion : List Char → Option (List Char)
  | [] => none
  | c :: cs =>
    if ciStarts inclHeading (c :: cs) then
      some (afterInclHeading ((c :: cs).drop inclHeading.length))
    else findInclusion cs

/-- The lazy capture `(.*?)(?=Exclusion Criteria|$)` (with `re.DOTALL`):
stop at the first position where the case-insensitive lookahead literal
begins, or where `$` matches — the end of the text, or just before a
newline that ends the text. -/
def captureUntilExcl : List Char → List Char
  | [] => []
  | c :: cs =>
    if ciStarts exclHeading (c :: cs) then []
    else if c == '\n' && cs.isEmpty then []
    else c :: captureUntilExcl cs

/-- One separator of `re.split(r'\n\d+\.|\n-', ...)`, after its leading
newline: a maximal nonempty digit run followed by a period, or a dash;
returns the text after the separator. -/
def sepTail (cs : List Char) : Option (List Char) :=
  let ds := cs.takeWhile Char.isDigit
  if ds.isEmpty then
    match cs with
    | x :: r => if x = '-' then some r else none
    | [] => none
  else
    match cs.drop ds.length with
    | x :: r => if x = '.' then some r else none
    | [] => none

/-- The scan of `re.split(r'\n\d+\.|\n-', text)`, structurally recursive
on a fuel bound (each separator consumes at least two characters, so the
input length is enough fuel; the zero-fuel branch is never reached): each
separator occurrence closes the current piece, the separator text is
dropped.  Backtracking cannot produce a different separator: a shorter
digit run is followed by a digit, never by the required period. -/
def splitGo : Nat → List Char → List (List Char)
  | _, [] => [[]]
  | 0, _ :: _ => [[]]
  | fuel + 1, c :: cs =>
    if c = '\n' then
      match sepTail cs with
      | some rest => [] :: splitGo fuel rest
      | none =>
        match splitGo fuel cs with
        | p :: ps => (c :: p) :: ps
        | [] => [[c]]
    else
      match splitGo fuel cs with
      | p :: ps => (c :: p) :: ps
      | [] => [[c]]

/-- `re.split(r'\n\d+\.|\n-', text)`. -/
def splitMarkers (l : List Char) : List (List Char) := splitGo l.length l

/-- `ProtocolParser.extract_inclusion_criteria`. -/
def extract_inclusion_criteria (text : String) : List String :=
  match findInclusion text.data with
  | none => []
  | some rest =>
    let captured := captureUntilExcl rest
    (((splitMarkers captured).map pyStrip).filter (fun l => !l.isEmpty)).map
      (fun l => String.mk l)

/-- Whether the text contains the inclusion heading literal anywhere
(case-insensitively) — "a heading is found". -/
def hasInclHeading : List Char → Bool
  | [] => false
  | c :: cs => ciStarts inclHeading (c :: cs) || hasInclHeading cs

end ProtocolParser

namespace ProtocolParser

/-- The literal `Protocol` of the protocol-number regex. -/
def protoWord : List Char := "protocol".data

/-- The alternation `(?:Number|ID|#)`, tried left to right (the three
alternatives begin with distinct letters, so at most one can start at a
given position); returns the text after the keyword. -/
def keywordTail (l : List Char) : Option (List Char) :=
  if ciStarts "number".data l then some (l.drop 6)
  else if ciStarts "id".data l then some (l.drop 2)
  else match l with
       | c :: cs => if c == '#' then some cs else none
       | [] => none

/-- The character class `[A-Z0-9-]` under `re.IGNORECASE`: the flag makes
`A-Z` match lower-case letters too, so the class is letters of either
case, digits, and the hyphen. -/
def isClassChar (c : Char) : Bool := c.isAlpha || c.isDigit || c == '-'

/-- One attempt of `Protocol\s+(?:Number|ID|#):?\s*([A-Z0-9-]+)` anchored
at the start of `l` (with `re.IGNORECASE`); returns the captured token.
The greedy choices are never productively backtracked: keyword initials
are distinct, whitespace is not a class character, and a consumed colon is
not a class character. -/
def tryProtoAt (l : List Char) : Option (List Char) :=
  if ciStarts protoWord l then
    let r1 := l.drop 8
    let ws := r1.takeWhile pyIsSpace
    if ws.isEmpty then none
    else
      match keywordTail (r1.drop ws.length) with
      | none => none
      | some r3 =>
        let r4 := match r3 with
                  | c :: cs => if c == ':' then cs else c :: cs
                  | [] => []
        let r5 := r4.dropWhile pyIsSpace
        let tok := r5.takeWhile isClassChar
        if tok.isEmpty then none else some tok
  else none

/-- `re.search`: the leftmost successful attempt wins. -/
def searchProto : List Char → Option (List Char)
  | [] => none
  | c :: cs =>
    match tryProtoAt (c :: cs) with
    | some t => some t
    | none => searchProto cs

/-- `ProtocolParser.extract_protocol_number`. -/
def extract_protocol_number (text : String) : Option String :=
  (searchProto text.data).map (fun l => String.mk l)

/-- Whether some attempt of the protocol-number pattern succeeds anywhere
in the text — "a match exists". -/
def hasProtoMatch : List Char → Bool
  | [] => false
  | c :: cs => (tryProtoAt (c :: cs)).isSome || hasProtoMatch cs

/-- Modelled from the spec: the claim reads the token class as
"uppercase letters, digits, and hyphens" — `[A-Z0-9-]` taken literally,
case-sensitively, while only the keyword literals are matched
case-insensitively.  Kept for comparison with the source behaviour, where
`re.IGNORECASE` widens the class to lower-case letters as well. -/
def isUpperClassChar (c : Char) : Bool := c.isUpper || c.isDigit || c == '-'

/-- Modelled from the spec: one anchored attempt of the claim's reading of
the pattern (token restricted to upper-case letters, digits, hyphens). -/
def tryProtoAtSpec (l : List Char) : Option (List Char) :=
  if ciStarts protoWord l then
    let r1 := l.drop 8
    let ws := r1.takeWhile pyIsSpace
    if ws.isEmpty then none
    else
      match keywordTail (r1.drop ws.length) with
      | none => none
      | some r3 =>
        let r4 := match r3 with
                  | c :: cs => if c == ':' then cs else c :: cs
                  | [] => []
        let r5 := r4.dropWhile pyIsSpace
        let tok := r5.takeWhile isUpperClassChar
        if tok.isEmpty then none else some tok
  else none

/-- Modelled from the spec: leftmost search with the claim's token class. -/
def searchProtoSpec : List Char → Option (List Char)
  | [] => none
  | c :: cs =>
    match tryProtoAtSpec (c :: cs) with
    | some t => some t
    | none => searchProtoSpec cs

/-- Modelled from the spec: `extractProtocolNumber` as the claim words it. -/
def extractProtocolNumberSpec (text : String) : Option String :=
  (searchProtoSpec text.data).map (fun l => String.mk l)

end ProtocolParser

/-! ## Concrete instances used by witnesses and counterexamples -/

/-- An ISO-date parser instance: every string parses to day 0. -/
def parse0 : String → Option Int := fun _ => some 0

/-- A fully valid patient record. -/
def pGood : PatientValidator.PatientData :=
  ⟨some (.str "PAT000001"), some (.int 30), some (.str "M"),
   some (.str "2024-01-01"), some (.str "SITE001"), some (.bool true)⟩

/-- A record whose `enrollment_date` is an `int`, not a string. -/
def pIntDate : PatientValidator.PatientData :=
  ⟨some (.str "PAT000001"), some (.int 30), some (.str "M"),
   some (.int 20240101), some (.str "SITE001"), some (.bool true)⟩

/-- A record that validates to `False`: consent explicitly not signed. -/
def pNoConsent : PatientValidator.PatientData :=
  ⟨some (.str "PAT000002"), some (.int 40), some (.str "F"),
   some (.str "2024-01-01"), some (.str "SITE002"), some (.bool false)⟩

/-- Whether `enrollment_date`, when present, is a string — the condition
under which `validate`'s date branch cannot raise `TypeError`. -/
def PatientValidator.enrollIsStr (p : PatientValidator.PatientData) : Bool :=
  match p.enrollment_date with
  | some (.str _) => true
  | some _ => false
  | none => true

/-- The boolean verdict of `validate` on one record (meaningful when the
call returns normally). -/
def PatientValidator.recValid (parse : String → Option Int) (now : Int)
    (p : PatientValidator.PatientData) : Bool :=
  match PatientValidator.validate parse now p with
  | .ok (b, _) => b
  | .error _ => false

/-- A timestamp parser distinguishing two dates. -/
def parse01 : String → Option Int := fun s =>
  if s = "2024-01-01" then some 0
  else if s = "2024-01-02" then some 1
  else none

/-- A `pd.to_datetime` instance on single values: every value maps to 0. -/
def parseE0 : Value → Option Int := fun _ => some 0

/-- A `pd.to_datetime` instance that fails on every value. -/
def parseENone : Value → Option Int := fun _ => none

/-- A fully valid adverse event. -/
def evGood : AdverseEventProcessor.Event :=
  ⟨some (.str "AE001"), some (.str "PAT000001"), some (.str "2024-01-01"),
   some (.str "Headache"), some (.str "Mild")⟩

/-- An event whose severity is lower-case, outside the enumeration. -/
def evBadSev : AdverseEventProcessor.Event :=
  ⟨some (.str "AE002"), some (.str "PAT000001"), some (.str "2024-01-01"),
   some (.str "Headache"), some (.str "mild")⟩

/-- A DataFrame whose `event_date` column still holds raw strings. -/
def dfStr : AdverseEventProcessor.DF :=
  ⟨[.str "2024-01-01", .str "2024-01-02"]⟩

/-- The spec's inclusion-criteria example text. -/
def exampleProtocolText : String :=
  "Inclusion Criteria:\n1. Age 18-85\n2. Signed consent\nExclusion Criteria:\n1. Pregnancy"

/-! ## Claims -/

/-- Claim C1: a patient record with all six required fields present and
well-typed (`patient_id` matching `PAT` + 6 digits, `age` between 18 and
85, `gender` in M/F/O, `site_id` matching `SITE` + 3 digits,
`consent_signed = True`), whose `enrollment_date` parses to a time not
later than now, makes `PatientValidator.validate` return `(True, [])`. -/
theorem claim_C1 (parse : String → Option Int) (now : Int)
    (p : PatientValidator.PatientData)
    (s1 : String) (h1 : p.patient_id = some (.str s1))
    (h1p : PatientValidator.matchPAT s1 = true)
    (n : Int) (h2 : p.age = some (.int n)) (h2a : 18 ≤ n) (h2b : n ≤ 85)
    (g : String) (h3 : p.gender = some (.str g))
    (h3e : g = "M" ∨ g = "F" ∨ g = "O")
    (d : String) (h4 : p.enrollment_date = some (.str d))
    (s2 : String) (h5 : p.site_id = some (.str s2))
    (h5p : PatientValidator.matchSITE s2 = true)
    (h6 : p.consent_signed = some (.bool true))
    (t : Int) (hp : parse d = some t) (ht : t ≤ now) :
    PatientValidator.validate parse now p = .ok (true, []) := by
  obtain ⟨f1, f2, f3, f4, f5, f6⟩ := p
  simp only at h1 h2 h3 h4 h5 h6
  subst h1 h2 h3 h4 h5 h6
  have hn1 : ¬ (n < 18) := by omega
  have hn2 : ¬ (n > 85) := by omega
  have hnt : ¬ (t > now) := by omega
  rcases h3e with hg | hg | hg <;> subst hg <;>
    simp [PatientValidator.validate, PatientValidator.schemaErrors,
      PatientValidator.schemaFields, PatientValidator.getField,
      PatientValidator.propertyErrors, h1p, h5p, hn1, hn2, hp, hnt]

/-- Claim C1 witness: a concrete valid record. -/
theorem claim_C1_witness :
    PatientValidator.validate parse0 0 pGood = .ok (true, []) :=
  claim_C1 parse0 0 pGood "PAT000001" rfl (by decide) 30 rfl (by decide)
    (by decide) "M" rfl (Or.inl rfl) "2024-01-01" rfl "SITE001" rfl
    (by decide) rfl 0 rfl (by decide)

/-- Claim C2 counterexample: on a record whose `enrollment_date` is the
integer `20240101`, `validate` does not return normally — the uncaught
`TypeError` from `datetime.fromisoformat` escapes, contradicting the claim
that no exception ever escapes the call. -/
theorem claim_C2_counterexample :
    PatientValidator.validate parse0 0 pIntDate = .error .typeError := rfl

/-- When `enrollment_date` is absent or a string, `validate` returns
normally. -/
theorem validate_isOk (parse : String → Option Int) (now : Int)
    (p : PatientValidator.PatientData)
    (h : PatientValidator.enrollIsStr p = true) :
    ∃ isValid errors,
      PatientValidator.validate parse now p = .ok (isValid, errors) := by
  cases hd : p.enrollment_date with
  | none =>
    simp only [PatientValidator.validate, hd]
    exact ⟨_, _, rfl⟩
  | some v =>
    cases v with
    | str s =>
      simp only [PatientValidator.validate, hd]
      exact ⟨_, _, rfl⟩
    | int n => simp [PatientValidator.enrollIsStr, hd] at h
    | bool b => simp [PatientValidator.enrollIsStr, hd] at h
    | vnull => simp [PatientValidator.enrollIsStr, hd] at h

/-- Claim C2 as amended: for every input whose `enrollment_date`, when
present, is a string, `validate` returns normally with the problems
reported in the error sequence; a present non-string `enrollment_date`
instead raises `TypeError` (only `ValueError` is caught). -/
theorem claim_C2_amended (parse : String → Option Int) (now : Int)
    (p : PatientValidator.PatientData)
    (h : PatientValidator.enrollIsStr p = true) :
    ∃ isValid errors,
      PatientValidator.validate parse now p = .ok (isValid, errors) :=
  validate_isOk parse now p h

/-- Claim C2 amended, witness: a concrete record with a string date. -/
theorem claim_C2_amended_witness :
    ∃ isValid errors,
      PatientValidator.validate parse0 0 pGood = .ok (isValid, errors) :=
  claim_C2_amended parse0 0 pGood (by decide)

/-- If the inclusion heading occurs nowhere in the text, the search fails. -/
theorem findInclusion_eq_none (l : List Char)
    (h : ProtocolParser.hasInclHeading l = false) :
    ProtocolParser.findInclusion l = none := by
  induction l with
  | nil => rfl
  | cons c cs ih =>
    simp only [ProtocolParser.hasInclHeading, Bool.or_eq_false_iff] at h
    simp only [ProtocolParser.findInclusion, h.1, Bool.false_eq_true,
      if_false, ih h.2]

/-- Claim C3 counterexample: on the claim's own example text the function
returns `["1. Age 18-85", "Signed consent"]`, not
`["Age 18-85", "Signed consent"]` — the first enumeration marker is not
removed, because the heading's `\s*` absorbs the newline the split
pattern needs. -/
theorem claim_C3_counterexample :
    ProtocolParser.extract_inclusion_criteria exampleProtocolText
        = ["1. Age 18-85", "Signed consent"]
      ∧ ProtocolParser.extract_inclusion_criteria exampleProtocolText
        ≠ ["Age 18-85", "Signed consent"] := by
  constructor
  · decide
  · decide

/-- Claim C3 as amended: the span between the case-insensitive inclusion
heading and the next exclusion heading (or end of text) is split on
line-leading enumeration markers into trimmed non-empty strings in source
order; a marker is removed with its leading newline, so a marker sitting
at the very start of the captured span — its newline already consumed by
the heading's trailing whitespace — survives in the first criterion.  On
the example text the result is exactly `["1. Age 18-85", "Signed consent"]`,
and when no heading is found the result is empty. -/
theorem claim_C3_amended :
    ProtocolParser.extract_inclusion_criteria exampleProtocolText
        = ["1. Age 18-85", "Signed consent"]
      ∧ ∀ text : String, ProtocolParser.hasInclHeading text.data = false →
          ProtocolParser.extract_inclusion_criteria text = [] := by
  refine ⟨by decide, fun text h => ?_⟩
  simp only [ProtocolParser.extract_inclusion_criteria,
    findInclusion_eq_none text.data h]

/-- Claim C3 amended, witness: a concrete heading-free text. -/
theorem claim_C3_witness :
    ProtocolParser.hasInclHeading "no heading in this text".data = false
      ∧ ProtocolParser.extract_inclusion_criteria "no heading in this text"
        = [] :=
  ⟨by decide, claim_C3_amended.2 "no heading in this text" (by decide)⟩

/-- Every element is bounded by the running maximum fold. -/
theorem foldl_max_spec (t : Int) (rest : List Int) :
    t ≤ rest.foldl max t ∧ ∀ x ∈ rest, x ≤ rest.foldl max t := by
  induction rest generalizing t with
  | nil => simp
  | cons r rs ih =>
    have h := ih (max t r)
    simp only [List.foldl_cons]
    refine ⟨le_trans (le_max_left t r) h.1, ?_⟩
    intro x hx
    rcases List.mem_cons.1 hx with hx | hx
    · subst hx; exact le_trans (le_max_right t x) h.1
    · exact h.2 x hx

/-- The running maximum fold lands on the seed or on a member. -/
theorem foldl_max_mem (t : Int) (rest : List Int) :
    rest.foldl max t = t ∨ rest.foldl max t ∈ rest := by
  induction rest generalizing t with
  | nil => simp
  | cons r rs ih =>
    simp only [List.foldl_cons]
    rcases ih (max t r) with h | h
    · rcases max_choice t r with hm | hm
      · exact Or.inl (by rw [h, hm])
      · exact Or.inr (List.mem_cons.2 (Or.inl (by rw [h, hm])))
    · exact Or.inr (List.mem_cons.2 (Or.inr h))

/-- Every element is bounded below by the running minimum fold. -/
theorem foldl_min_spec (t : Int) (rest : List Int) :
    rest.foldl min t ≤ t ∧ ∀ x ∈ rest, rest.foldl min t ≤ x := by
  induction rest generalizing t with
  | nil => simp
  | cons r rs ih =>
    have h := ih (min t r)
    simp only [List.foldl_cons]
    refine ⟨le_trans h.1 (min_le_left t r), ?_⟩
    intro x hx
    rcases List.mem_cons.1 hx with hx | hx
    · subst hx; exact le_trans h.1 (min_le_right t x)
    · exact h.2 x hx

/-- The running minimum fold lands on the seed or on a member. -/
theorem foldl_min_mem (t : Int) (rest : List Int) :
    rest.foldl min t = t ∨ rest.foldl min t ∈ rest := by
  induction rest generalizing t with
  | nil => simp
  | cons r rs ih =>
    simp only [List.foldl_cons]
    rcases ih (min t r) with h | h
    · rcases min_choice t r with hm | hm
      · exact Or.inl (by rw [h, hm])
      · exact Or.inr (List.mem_cons.2 (Or.inl (by rw [h, hm])))
    · exact Or.inr (List.mem_cons.2 (Or.inr h))

/-- The column spread is zero exactly when every entry equals the first
(all events on one calendar date). -/
theorem span_zero_iff (t : Int) (rest : List Int) :
    AdverseEventProcessor.colMax t rest - AdverseEventProcessor.colMin t rest = 0
      ↔ ∀ x ∈ rest, x = t := by
  simp only [AdverseEventProcessor.colMax, AdverseEventProcessor.colMin]
  constructor
  · intro h x hx
    have h1 := (foldl_max_spec t rest).2 x hx
    have h2 := (foldl_min_spec t rest).2 x hx
    have h3 := (foldl_max_spec t rest).1
    have h4 := (foldl_min_spec t rest).1
    omega
  · intro h
    have h1 : rest.foldl max t = t := by
      rcases foldl_max_mem t rest with hm | hm
      · exact hm
      · exact h _ hm
    have h2 : rest.foldl min t = t := by
      rcases foldl_min_mem t rest with hm | hm
      · exact hm
      · exact h _ hm
    omega

/-- Claim C4: `calculate_event_rate` returns 0.0 on an empty collection;
the raw count when all (parsed) event dates are equal (zero-day span); and
otherwise the count divided by the span in days between the latest and
earliest date; the `days` parameter never affects the value. -/
theorem claim_C4 (parse : String → Option Int) (days : Int) :
    (∀ df : AdverseEventProcessor.DF, df.event_date = [] →
        AdverseEventProcessor.calculate_event_rate parse df days = .ok (0, df))
    ∧ (∀ (df : AdverseEventProcessor.DF) (d : AdverseEventProcessor.DateVal)
        (ds : List AdverseEventProcessor.DateVal) (t : Int) (rest : List Int),
        df.event_date = d :: ds →
        AdverseEventProcessor.toDatetime parse d = some t →
        ds.mapM (AdverseEventProcessor.toDatetime parse) = some rest →
        (∀ x ∈ rest, x = t) →
        AdverseEventProcessor.calculate_event_rate parse df days
          = .ok (((d :: ds).length : ℚ),
                 ⟨(t :: rest).map AdverseEventProcessor.DateVal.ts⟩))
    ∧ (∀ (df : AdverseEventProcessor.DF) (d : AdverseEventProcessor.DateVal)
        (ds : List AdverseEventProcessor.DateVal) (t : Int) (rest : List Int),
        df.event_date = d :: ds →
        AdverseEventProcessor.toDatetime parse d = some t →
        ds.mapM (AdverseEventProcessor.toDatetime parse) = some rest →
        ¬ (∀ x ∈ rest, x = t) →
        AdverseEventProcessor.calculate_event_rate parse df days
          = .ok (((d :: ds).length : ℚ)
                   / ((AdverseEventProcessor.colMax t rest
                        - AdverseEventProcessor.colMin t rest : Int) : ℚ),
                 ⟨(t :: rest).map AdverseEventProcessor.DateVal.ts⟩))
    ∧ (∀ (df : AdverseEventProcessor.DF) (days2 : Int),
        AdverseEventProcessor.calculate_event_rate parse df days
          = AdverseEventProcessor.calculate_event_rate parse df days2) := by
  refine ⟨?_, ?_, ?_, ?_⟩
  · rintro ⟨col⟩ h
    simp only at h
    subst h
    rfl
  · rintro ⟨col⟩ d ds t rest h ht hrest hall
    simp only at h
    subst h
    have hz : AdverseEventProcessor.colMax t rest
        - AdverseEventProcessor.colMin t rest = 0 :=
      (span_zero_iff t rest).2 hall
    simp only [AdverseEventProcessor.calculate_event_rate]
    rw [ht, hrest]
    simp [hz]
  · rintro ⟨col⟩ d ds t rest h ht hrest hnall
    simp only at h
    subst h
    have hz : ¬ (AdverseEventProcessor.colMax t rest
        - AdverseEventProcessor.colMin t rest = 0) :=
      fun hz => hnall ((span_zero_iff t rest).1 hz)
    simp only [AdverseEventProcessor.calculate_event_rate]
    rw [ht, hrest]
    simp [hz]
  · intro df days2
    rfl

/-- Claim C4 witness: an empty frame, a one-date frame, and a two-day
spread. -/
theorem claim_C4_witness :
    AdverseEventProcessor.calculate_event_rate parse0 ⟨[]⟩ 30 = .ok (0, ⟨[]⟩)
    ∧ AdverseEventProcessor.calculate_event_rate parse0
        ⟨[.ts 5, .ts 5]⟩ 30 = .ok (2, ⟨[.ts 5, .ts 5]⟩)
    ∧ AdverseEventProcessor.calculate_event_rate parse01 dfStr 30
        = .ok (2, ⟨[.ts 0, .ts 1]⟩) := by
  refine ⟨?_, ?_, ?_⟩
  · exact (claim_C4 parse0 30).1 ⟨[]⟩ rfl
  · have h := (claim_C4 parse0 30).2.1 ⟨[.ts 5, .ts 5]⟩ (.ts 5) [.ts 5] 5 [5]
      rfl rfl rfl (by decide)
    simpa using h
  · have h := (claim_C4 parse01 30).2.2.1 dfStr (.str "2024-01-01")
      [.str "2024-01-02"] 0 [1] rfl rfl rfl (by decide)
    have h2 : ((AdverseEventProcessor.colMax 0 [1]
        - AdverseEventProcessor.colMin 0 [1] : Int) : ℚ) = 1 := by decide
    rw [h, h2]
    norm_num

/-- Claim C5 counterexample: `calculate_event_rate` does modify the event
collection passed in — on a frame holding two raw date strings the caller's
`event_date` column is rewritten to parsed timestamps, so the frame after
the call differs from the frame before it. -/
theorem claim_C5_counterexample :
    (AdverseEventProcessor.calculate_event_rate parse01 dfStr 30).toOption.map
        Prod.snd = some ⟨[.ts 0, .ts 1]⟩
      ∧ (⟨[.ts 0, .ts 1]⟩ : AdverseEventProcessor.DF) ≠ dfStr := by
  constructor
  · decide
  · decide

/-- Claim C5 as amended: the pure validation and extraction functions take
and return values, but `calculate_event_rate` rewrites the `event_date`
column of every nonempty input with the parsed timestamps
(`df["event_date"] = pd.to_datetime(df["event_date"])`), a caller-visible
mutation; only an empty collection is returned untouched. -/
theorem claim_C5_amended (parse : String → Option Int) (days : Int) :
    (∀ df : AdverseEventProcessor.DF, df.event_date = [] →
        AdverseEventProcessor.calculate_event_rate parse df days
          = .ok (0, df))
    ∧ (∀ (df : AdverseEventProcessor.DF) (d : AdverseEventProcessor.DateVal)
        (ds : List AdverseEventProcessor.DateVal) (r : ℚ)
        (df' : AdverseEventProcessor.DF),
        df.event_date = d :: ds →
        AdverseEventProcessor.calculate_event_rate parse df days
          = .ok (r, df') →
        ∃ t rest, AdverseEventProcessor.toDatetime parse d = some t
          ∧ ds.mapM (AdverseEventProcessor.toDatetime parse) = some rest
          ∧ df' = ⟨(t :: rest).map AdverseEventProcessor.DateVal.ts⟩) := by
  constructor
  · rintro ⟨col⟩ h
    simp only at h
    subst h
    rfl
  · rintro ⟨col⟩ d ds r df' h hc
    simp only at h
    subst h
    simp only [AdverseEventProcessor.calculate_event_rate] at hc
    split at hc
    · rename_i t rest heq1 heq2
      refine ⟨t, rest, heq1, heq2, ?_⟩
      split at hc
      all_goals
        simp only [Except.ok.injEq, Prod.mk.injEq] at hc
        exact hc.2.symm
    · simp at hc

/-- Claim C5 amended, witness: the two-string frame is returned with its
column converted. -/
theorem claim_C5_amended_witness :
    ∃ t rest, AdverseEventProcessor.toDatetime parse01
          (.str "2024-01-01") = some t
      ∧ [AdverseEventProcessor.DateVal.str "2024-01-02"].mapM
          (AdverseEventProcessor.toDatetime parse01) = some rest
      ∧ (⟨[AdverseEventProcessor.DateVal.ts 0,
           AdverseEventProcessor.DateVal.ts 1]⟩
          : AdverseEventProcessor.DF)
        = ⟨(t :: rest).map AdverseEventProcessor.DateVal.ts⟩ :=
  (claim_C5_amended parse01 30).2 dfStr (.str "2024-01-01")
    [.str "2024-01-02"] (((2 : ℕ) : ℚ) / ((1 : ℤ) : ℚ)) ⟨[.ts 0, .ts 1]⟩
    rfl rfl

/-- Splitting a list by a boolean predicate partitions its length. -/
theorem length_filter_partition {α : Type} (l : List α) (p : α → Bool) :
    (l.filter p).length + (l.filter (fun a => !(p a))).length = l.length := by
  induction l with
  | nil => rfl
  | cons a as ih =>
    by_cases hp : p a = true <;> simp [List.filter_cons, hp] <;> omega

/-- `validate_batch` partitions its input by the verdict of `validate`,
provided every record lets `validate` return normally. -/
theorem batch_spec (parse : String → Option Int) (now : Int)
    (patients : List PatientValidator.PatientData)
    (h : ∀ p ∈ patients, PatientValidator.enrollIsStr p = true) :
    ∃ b : PatientValidator.BatchResult,
      PatientValidator.validate_batch parse now patients = .ok b
      ∧ b.valid = patients.filter (PatientValidator.recValid parse now)
      ∧ b.invalid.map Prod.fst
          = patients.filter
              (fun p => !(PatientValidator.recValid parse now p)) := by
  induction patients with
  | nil => exact ⟨⟨[], []⟩, rfl, rfl, rfl⟩
  | cons p rest ih =>
    obtain ⟨bv, es, hval⟩ := validate_isOk parse now p (h p (by simp))
    obtain ⟨b, hb, hvalid, hinvalid⟩ := ih (fun q hq => h q (by simp [hq]))
    have hrec : PatientValidator.recValid parse now p = bv := by
      simp [PatientValidator.recValid, hval]
    cases bv with
    | true =>
      refine ⟨⟨p :: b.valid, b.invalid⟩, ?_, ?_, ?_⟩
      · simp [PatientValidator.validate_batch, hval, hb, Bind.bind,
          Except.bind, pure, Except.pure]
      · simp [List.filter_cons, hrec, hvalid]
      · simp [List.filter_cons, hrec, hinvalid]
    | false =>
      refine ⟨⟨b.valid, (p, es) :: b.invalid⟩, ?_, ?_, ?_⟩
      · simp [PatientValidator.validate_batch, hval, hb, Bind.bind,
          Except.bind, pure, Except.pure]
      · simp [List.filter_cons, hrec, hvalid]
      · simp [List.filter_cons, hrec, hinvalid]

/-- Claim C6: `get_validation_summary` reports the input length as total,
valid/invalid counts obtained by partitioning the input with `validate`,
and a validation rate of valid over total, exactly 0 on an empty input. -/
theorem claim_C6 (parse : String → Option Int) (now : Int)
    (patients : List PatientValidator.PatientData)
    (h : ∀ p ∈ patients, PatientValidator.enrollIsStr p = true) :
    ∃ s : PatientValidator.Summary,
      PatientValidator.get_validation_summary parse now patients = .ok s
      ∧ s.total = patients.length
      ∧ s.valid
          = (patients.filter (PatientValidator.recValid parse now)).length
      ∧ s.invalid
          = (patients.filter
              (fun p => !(PatientValidator.recValid parse now p))).length
      ∧ s.valid + s.invalid = s.total
      ∧ s.validation_rate
          = if patients.isEmpty then 0
            else (s.valid : ℚ) / (s.total : ℚ) := by
  obtain ⟨b, hb, hvalid, hinvalid⟩ := batch_spec parse now patients h
  refine ⟨⟨patients.length, b.valid.length, b.invalid.length,
      if patients.isEmpty then 0
      else (b.valid.length : ℚ) / (patients.length : ℚ)⟩,
    ?_, rfl, ?_, ?_, ?_, ?_⟩
  · simp [PatientValidator.get_validation_summary, hb, Bind.bind,
      Except.bind, pure, Except.pure]
  · simp [hvalid]
  · simp [← hinvalid]
  · have h2 := congrArg List.length hinvalid
    simp only [List.length_map] at h2
    simp only [hvalid, h2]
    exact length_filter_partition patients (PatientValidator.recValid parse now)
  · rfl

/-- Claim C6 witness: a two-record batch, one valid and one invalid. -/
theorem claim_C6_witness :
    ∃ s : PatientValidator.Summary,
      PatientValidator.get_validation_summary parse0 0 [pGood, pNoConsent]
        = .ok s
      ∧ s.total = 2 ∧ s.valid = 1 ∧ s.invalid = 1
      ∧ s.validation_rate = (1 : ℚ) / (2 : ℚ) := by
  obtain ⟨s, hs, ht, hv, hi, _, hr⟩ :=
    claim_C6 parse0 0 [pGood, pNoConsent] (by decide)
  refine ⟨s, hs, ht, ?_, ?_, ?_⟩
  · rw [hv]; decide
  · rw [hi]; decide
  · rw [hr, ht, hv]
    have hflt : (List.filter (PatientValidator.recValid parse0 0)
        [pGood, pNoConsent]).length = 1 := by decide
    rw [hflt]
    norm_num

/-- Claim C7: an event carrying a severity value outside the five-value
enumeration (case-sensitive) always makes `validate_event` return `False`,
with an invalid-severity error in the list; that error's text ends with
the rendered enumeration of all five valid values. -/
theorem claim_C7 (parse : Value → Option Int) (now : Int)
    (ev : AdverseEventProcessor.Event) (v : Value)
    (hv : ev.severity = some v)
    (hns : AdverseEventProcessor.inSeverityLevels v = false) :
    (AdverseEventProcessor.validate_event parse now ev).1 = false
    ∧ AdverseEventProcessor.severityMsg v
        ∈ (AdverseEventProcessor.validate_event parse now ev).2
    ∧ ∃ rest, AdverseEventProcessor.severityMsg v
        = rest ++ AdverseEventProcessor.severityLevelsStr := by
  refine ⟨?_, ?_, ⟨"Invalid severity: " ++ v.pyStr ++ ". Must be one of ", rfl⟩⟩
  · simp only [AdverseEventProcessor.validate_event,
      AdverseEventProcessor.sevErrors, hv, hns]
    simp [List.length_append]
  · simp only [AdverseEventProcessor.validate_event,
      AdverseEventProcessor.sevErrors, hv, hns]
    simp

/-- Claim C7 witness: a lower-case severity string. -/
theorem claim_C7_witness :
    (AdverseEventProcessor.validate_event parseE0 0 evBadSev).1 = false
    ∧ AdverseEventProcessor.severityMsg (.str "mild")
        ∈ (AdverseEventProcessor.validate_event parseE0 0 evBadSev).2
    ∧ ∃ rest, AdverseEventProcessor.severityMsg (.str "mild")
        = rest ++ AdverseEventProcessor.severityLevelsStr :=
  claim_C7 parseE0 0 evBadSev (.str "mild") rfl (by decide)

/-- Every required-field error is the fixed message for one of the five
required columns. -/
theorem missing_msgs (ev : AdverseEventProcessor.Event) (m : String)
    (hm : m ∈ AdverseEventProcessor.missingErrors ev) :
    ∃ f ∈ AdverseEventProcessor.required_columns,
      m = "Missing required field: " ++ f := by
  simp only [AdverseEventProcessor.missingErrors, List.mem_map] at hm
  obtain ⟨f, hf, hmf⟩ := hm
  exact ⟨f, List.mem_of_mem_filter hf, hmf.symm⟩

/-- An invalid-severity message starts with an `I`, so it is neither of
the two date messages. -/
theorem sevMsg_ne_dateMsgs (v : Value) :
    AdverseEventProcessor.severityMsg v ≠ AdverseEventProcessor.dateFormatMsg
    ∧ AdverseEventProcessor.severityMsg v
        ≠ AdverseEventProcessor.dateFutureMsg := by
  have hhead : (AdverseEventProcessor.severityMsg v).data.head? = some 'I' :=
    rfl
  constructor <;> intro h <;>
    rw [congrArg (fun s => List.head? s.data) h] at hhead <;>
    exact absurd hhead (by decide)

/-- Neither date message occurs in the required-field block. -/
theorem dateMsgs_not_mem_missing (ev : AdverseEventProcessor.Event) :
    AdverseEventProcessor.dateFormatMsg
        ∉ AdverseEventProcessor.missingErrors ev
    ∧ AdverseEventProcessor.dateFutureMsg
        ∉ AdverseEventProcessor.missingErrors ev := by
  constructor <;> intro hm <;>
    obtain ⟨f, hf, hmf⟩ := missing_msgs ev _ hm <;>
    simp only [AdverseEventProcessor.required_columns, List.mem_cons,
      List.mem_singleton, List.not_mem_nil, or_false] at hf <;>
    rcases hf with rfl | rfl | rfl | rfl | rfl <;>
    exact absurd hmf (by decide)

/-- Neither date message occurs in the severity block. -/
theorem dateMsgs_not_mem_sev (ev : AdverseEventProcessor.Event) :
    AdverseEventProcessor.dateFormatMsg ∉ AdverseEventProcessor.sevErrors ev
    ∧ AdverseEventProcessor.dateFutureMsg
        ∉ AdverseEventProcessor.sevErrors ev := by
  unfold AdverseEventProcessor.sevErrors
  cases ev.severity with
  | none => simp
  | some w =>
    by_cases hw : AdverseEventProcessor.inSeverityLevels w = true
    · simp [hw]
    · simp only [hw, Bool.false_eq_true, if_false]
      constructor <;> intro hm
      · exact absurd (List.mem_singleton.1 hm).symm (sevMsg_ne_dateMsgs w).1
      · exact absurd (List.mem_singleton.1 hm).symm (sevMsg_ne_dateMsgs w).2

/-- Neither date message occurs in the patient-id block. -/
theorem dateMsgs_not_mem_pid (ev : AdverseEventProcessor.Event) :
    AdverseEventProcessor.dateFormatMsg ∉ AdverseEventProcessor.pidErrors ev
    ∧ AdverseEventProcessor.dateFutureMsg
        ∉ AdverseEventProcessor.pidErrors ev := by
  unfold AdverseEventProcessor.pidErrors
  cases ev.patient_id with
  | none => simp
  | some w =>
    by_cases hw : AdverseEventProcessor.isStrStartingPAT w = true
    · simp [hw]
    · simp only [hw, Bool.false_eq_true, if_false]
      constructor <;> simp <;> decide

/-- Claim C8: for an event with an `event_date` field, the invalid-format
error appears exactly when the value is unparseable, the in-the-future
error exactly when it parses to a time later than now, and the two can
never both appear for the field. -/
theorem claim_C8 (parse : Value → Option Int) (now : Int)
    (ev : AdverseEventProcessor.Event) (v : Value)
    (hv : ev.event_date = some v) :
    (AdverseEventProcessor.dateFormatMsg
        ∈ (AdverseEventProcessor.validate_event parse now ev).2
      ↔ parse v = none)
    ∧ (AdverseEventProcessor.dateFutureMsg
        ∈ (AdverseEventProcessor.validate_event parse now ev).2
      ↔ ∃ t, parse v = some t ∧ t > now)
    ∧ ¬ (AdverseEventProcessor.dateFormatMsg
          ∈ (AdverseEventProcessor.validate_event parse now ev).2
        ∧ AdverseEventProcessor.dateFutureMsg
          ∈ (AdverseEventProcessor.validate_event parse now ev).2) := by
  have hmem : ∀ m : String,
      m ∈ (AdverseEventProcessor.validate_event parse now ev).2
        ↔ m ∈ AdverseEventProcessor.missingErrors ev
          ∨ m ∈ AdverseEventProcessor.sevErrors ev
          ∨ m ∈ AdverseEventProcessor.dateErrors parse now ev
          ∨ m ∈ AdverseEventProcessor.pidErrors ev := by
    intro m
    simp [AdverseEventProcessor.validate_event, List.mem_append]
  have hfmt : AdverseEventProcessor.dateFormatMsg
      ∈ (AdverseEventProcessor.validate_event parse now ev).2
      ↔ AdverseEventProcessor.dateFormatMsg
        ∈ AdverseEventProcessor.dateErrors parse now ev := by
    rw [hmem]
    constructor
    · rintro (h | h | h | h)
      · exact absurd h (dateMsgs_not_mem_missing ev).1
      · exact absurd h (dateMsgs_not_mem_sev ev).1
      · exact h
      · exact absurd h (dateMsgs_not_mem_pid ev).1
    · exact fun h => Or.inr (Or.inr (Or.inl h))
  have hfut : AdverseEventProcessor.dateFutureMsg
      ∈ (AdverseEventProcessor.validate_event parse now ev).2
      ↔ AdverseEventProcessor.dateFutureMsg
        ∈ AdverseEventProcessor.dateErrors parse now ev := by
    rw [hmem]
    constructor
    · rintro (h | h | h | h)
      · exact absurd h (dateMsgs_not_mem_missing ev).2
      · exact absurd h (dateMsgs_not_mem_sev ev).2
      · exact h
      · exact absurd h (dateMsgs_not_mem_pid ev).2
    · exact fun h => Or.inr (Or.inr (Or.inl h))
  have hne : AdverseEventProcessor.dateFutureMsg
      ≠ AdverseEventProcessor.dateFormatMsg := by decide
  rw [hfmt, hfut]
  simp only [AdverseEventProcessor.dateErrors, hv]
  cases hp : parse v with
  | none => simp [hne]
  | some t =>
    by_cases hnow : t > now
    · simp [hnow, hne, hne.symm]
    · simp [hnow, hne]

/-- Claim C8 witness: a concrete event whose date fails to parse. -/
theorem claim_C8_witness :
    (AdverseEventProcessor.dateFormatMsg
        ∈ (AdverseEventProcessor.validate_event parseENone 0 evGood).2
      ↔ parseENone (.str "2024-01-01") = none)
    ∧ (AdverseEventProcessor.dateFutureMsg
        ∈ (AdverseEventProcessor.validate_event parseENone 0 evGood).2
      ↔ ∃ t, parseENone (.str "2024-01-01") = some t ∧ t > 0)
    ∧ ¬ (AdverseEventProcessor.dateFormatMsg
          ∈ (AdverseEventProcessor.validate_event parseENone 0 evGood).2
        ∧ AdverseEventProcessor.dateFutureMsg
          ∈ (AdverseEventProcessor.validate_event parseENone 0 evGood).2) :=
  claim_C8 parseENone 0 evGood (.str "2024-01-01") rfl

/-- If no attempt of the protocol-number pattern succeeds, the search
returns nothing. -/
theorem searchProto_eq_none (l : List Char)
    (h : ProtocolParser.hasProtoMatch l = false) :
    ProtocolParser.searchProto l = none := by
  induction l with
  | nil => rfl
  | cons c cs ih =>
    simp only [ProtocolParser.hasProtoMatch, Bool.or_eq_false_iff] at h
    have h1 : ProtocolParser.tryProtoAt (c :: cs) = none := by
      cases htr : ProtocolParser.tryProtoAt (c :: cs) with
      | none => rfl
      | some t => rw [htr] at h; simp at h
    simp only [ProtocolParser.searchProto, h1]
    exact ih h.2

/-- Claim C9 counterexample: with `re.IGNORECASE` the character class
`[A-Z0-9-]` also matches lower-case letters, so on
`"Protocol Number: abc-123"` the code returns `"abc-123"` — a token that
is not made of upper-case letters, digits and hyphens — while the claim's
reading of the pattern (upper-case-only token class) finds no match. -/
theorem claim_C9_counterexample :
    ProtocolParser.extract_protocol_number "Protocol Number: abc-123"
        = some "abc-123"
      ∧ ProtocolParser.extractProtocolNumberSpec "Protocol Number: abc-123"
        = none
      ∧ ¬ ("abc-123".data.all
            (fun c => c.isUpper || c.isDigit || c == '-') = true) := by
  refine ⟨by decide, by decide, by decide⟩

/-- Claim C9 as amended: `extract_protocol_number` searches
case-insensitively for `Protocol` followed by `Number`/`ID`/`#`, an
optional colon and whitespace, then a token of letters of either case
(the case-insensitive flag applies to the `[A-Z0-9-]` class as well),
digits and hyphens, returning the first such token; on
`"Protocol Number: ABC-123"` it returns `"ABC-123"`, and it returns
absent when no match exists anywhere in the text. -/
theorem claim_C9_amended :
    ProtocolParser.extract_protocol_number "Protocol Number: ABC-123"
        = some "ABC-123"
      ∧ ProtocolParser.extract_protocol_number "Protocol Number: abc-123"
        = some "abc-123"
      ∧ ∀ text : String, ProtocolParser.hasProtoMatch text.data = false →
          ProtocolParser.extract_protocol_number text = none := by
  refine ⟨by decide, by decide, fun text h => ?_⟩
  simp [ProtocolParser.extract_protocol_number,
    searchProto_eq_none text.data h]

/-- Claim C9 amended, witness: a concrete matchless text. -/
theorem claim_C9_witness :
    ProtocolParser.hasProtoMatch "no protocol token anywhere".data = false
      ∧ ProtocolParser.extract_protocol_number "no protocol token anywhere"
        = none :=
  ⟨by decide, claim_C9_amended.2.2 "no protocol token anywhere" (by decide)⟩

/-- The boolean computed as `len(errors) == 0` is true exactly on the
empty error list. -/
theorem lenBeq_iff (E : List String) : ((E.length == 0) = true) ↔ E = [] := by
  simp [List.length_eq_zero]

/-- Claim C10: whenever `validate` returns, and always for
`validate_event`, the returned flag is true exactly when the returned
error sequence is empty. -/
theorem claim_C10 :
    (∀ (parse : String → Option Int) (now : Int)
        (p : PatientValidator.PatientData) (isValid : Bool)
        (errors : List String),
        PatientValidator.validate parse now p = .ok (isValid, errors) →
        (isValid = true ↔ errors = []))
    ∧ (∀ (parse : Value → Option Int) (now : Int)
        (ev : AdverseEventProcessor.Event),
        ((AdverseEventProcessor.validate_event parse now ev).1 = true
          ↔ (AdverseEventProcessor.validate_event parse now ev).2 = [])) := by
  constructor
  · intro parse now p isValid errors hok
    cases hd : p.enrollment_date with
    | none =>
      simp only [PatientValidator.validate, hd, Except.ok.injEq,
        Prod.mk.injEq] at hok
      obtain ⟨h1, h2⟩ := hok
      subst h2
      rw [← h1]
      exact lenBeq_iff _
    | some v =>
      cases v with
      | str s =>
        simp only [PatientValidator.validate, hd, Except.ok.injEq,
          Prod.mk.injEq] at hok
        obtain ⟨h1, h2⟩ := hok
        subst h2
        rw [← h1]
        exact lenBeq_iff _
      | int n => simp [PatientValidator.validate, hd] at hok
      | bool b => simp [PatientValidator.validate, hd] at hok
      | vnull => simp [PatientValidator.validate, hd] at hok
  · intro parse now ev
    exact lenBeq_iff _

/-- Claim C10 witness: an unsigned-consent record and a valid event. -/
theorem claim_C10_witness :
    (false = true
      ↔ ["consent_signed: Patient must have signed consent"]
        = ([] : List String))
    ∧ ((AdverseEventProcessor.validate_event parseE0 0 evGood).1 = true
      ↔ (AdverseEventProcessor.validate_event parseE0 0 evGood).2 = []) :=
  ⟨claim_C10.1 parse0 0 pNoConsent false
      ["consent_signed: Patient must have signed consent"] (by decide),
   claim_C10.2 parseE0 0 evGood⟩
